import Mathlib

/-!
Verification of the outreach-dashboard backend (Flask + Snowflake + Gmail).

Shallow embedding of:
- src/sendEmails.py          (create_message, send_message)
- src/archive/snowflakeConnector.py
                             (get_snowflake_connection, fetch_data_as_json,
                              process_snowflake_query)
- src/archive/app.py         (route table, send_emails handler)

External effects (Gmail sends, the Snowflake wire protocol, the multipart
boundary drawn from the process RNG) are made explicit: sends become events
in a trace, the boundary becomes an explicit argument, and warehouse /
parser failures become an injected fault point carried in a world state.
-/

namespace OutreachDashboard

/-! ## Email dispatcher: src/sendEmails.py -/

/-- The fixed blind-copy address set on every message (src/sendEmails.py line 14). -/
def bccAddress : String := "6939709@bcc.hubspot.com"

/-- The fixed sender address (src/sendEmails.py line 24). -/
def senderAddress : String := "cameron.michie@ably.com"

/-- One MIME body part (models email.mime.text.MIMEText). -/
structure MimePart where
  contentType : String
  content : String
deriving DecidableEq, Repr

/-- A MIME message (models email.mime.multipart.MIMEMultipart): the subtype
passed to the constructor, the headers set on it in order, and its parts. -/
structure MimeMessage where
  subtype : String
  headers : List (String × String)
  parts : List MimePart
deriving DecidableEq, Repr

/-- The message built by create_message (src/sendEmails.py lines 9-18): headers
to / from / subject / bcc in assignment order, one attached HTML part. -/
def create_message_mime (sender toAddr subject message_html : String) : MimeMessage :=
  { subtype := "alternative"
    headers := [("to", toAddr), ("from", sender), ("subject", subject), ("bcc", bccAddress)]
    parts := [{ contentType := "text/html", content := message_html }] }

/-- Modelled from the vendor interface: serialization of one part by
email.generator.Generator (boundary line, part headers, blank line, payload). -/
def renderPart (boundary : String) (p : MimePart) : List String :=
  ["--" ++ boundary,
   "Content-Type: " ++ p.contentType ++ "; charset=\"utf-8\"",
   "MIME-Version: 1.0",
   "Content-Transfer-Encoding: 7bit",
   "",
   p.content]

/-- Modelled from the vendor interface: line-level serialization of the whole
message by Message.as_bytes (top headers, blank line, parts, closing boundary).
The multipart boundary, which CPython draws from the process RNG at
serialization time, is an explicit argument. -/
def renderLines (boundary : String) (m : MimeMessage) : List String :=
  ("Content-Type: multipart/" ++ m.subtype ++ "; boundary=\"" ++ boundary ++ "\"") ::
    "MIME-Version: 1.0" ::
    (m.headers.map (fun h => h.1 ++ ": " ++ h.2) ++
      [""] ++
      m.parts.flatMap (renderPart boundary) ++
      ["--" ++ boundary ++ "--", ""])

/-- Join serialized lines with the generator's line separator. -/
def joinLines (ls : List String) : String := String.intercalate "\n" ls

/-- UTF-8 encoding of one character (models bytes of the serialized message). -/
def utf8Bytes (c : Char) : List Nat :=
  let n := c.toNat
  if n < 128 then [n]
  else if n < 2048 then [192 + n / 64, 128 + n % 64]
  else if n < 65536 then [224 + n / 4096, 128 + (n / 64) % 64, 128 + n % 64]
  else [240 + n / 262144, 128 + (n / 4096) % 64, 128 + (n / 64) % 64, 128 + n % 64]

/-- UTF-8 bytes of a string. -/
def strBytes (s : String) : List Nat := s.data.flatMap utf8Bytes

/-- The URL-safe base64 alphabet (models base64.urlsafe_b64encode). -/
def base64Char (n : Nat) : Char :=
  if n < 26 then Char.ofNat (65 + n)
  else if n < 52 then Char.ofNat (97 + (n - 26))
  else if n < 62 then Char.ofNat (48 + (n - 52))
  else if n = 62 then '-'
  else '_'

/-- URL-safe base64 encoding with padding (models base64.urlsafe_b64encode). -/
def base64urlEncode : List Nat → List Char
  | a :: b :: c :: rest =>
    let w := a * 65536 + b * 256 + c
    base64Char (w / 262144) :: base64Char ((w / 4096) % 64) ::
      base64Char ((w / 64) % 64) :: base64Char (w % 64) :: base64urlEncode rest
  | [a, b] =>
    let w := a * 1024 + b * 4
    [base64Char (w / 4096), base64Char ((w / 64) % 64), base64Char (w % 64), '=']
  | [a] =>
    let w := a * 16
    [base64Char (w / 64), base64Char (w % 64), '=', '=']
  | [] => []

/-- The dict returned by create_message: a single key raw holding the encoded
message. -/
structure RawMessage where
  raw : String
deriving DecidableEq, Repr

/-- create_message (src/sendEmails.py lines 9-18): build the MIME message and
return the base64url encoding of its serialized bytes under the given
multipart boundary. -/
def create_message (boundary sender toAddr subject message_html : String) : RawMessage :=
  { raw := String.mk (base64urlEncode (strBytes (joinLines (renderLines boundary
      (create_message_mime sender toAddr subject message_html))))) }

/-- Observable events of a dispatch: the one-per-batch OAuth authorization, and
each Gmail send call recorded with the create_message arguments it was built
from (sender, recipient, subject, body). -/
inductive Event where
  | authorize
  | send (sender toAddr subject body : String)
deriving DecidableEq, Repr

/-- The for-loop of send_message (src/sendEmails.py lines 26-29), with a fault
oracle: failsAt i says whether the i-th send call raises.  Returns the send
events actually issued and the index of the failing send, if any; the loop has
no exception handler, so the first failure ends the iteration. -/
def sendLoop (failsAt : Nat → Bool) : Nat → List (String × String × String) → List Event × Option Nat
  | _, [] => ([], none)
  | i, (body, subject, toEmail) :: rest =>
    if failsAt i then ([Event.send senderAddress toEmail subject body], some i)
    else
      let r := sendLoop failsAt (i + 1) rest
      (Event.send senderAddress toEmail subject body :: r.1, r.2)

/-- Python zip of the three parallel sequences: truncates to the shortest. -/
def zip3 (bodies subjects tos : List String) : List (String × String × String) :=
  bodies.zip (subjects.zip tos)

/-- send_message (src/sendEmails.py lines 20-29): authorize once, then iterate
zip(bodies, subjects, tos) in order, building and sending one message per
triple.  Returns the event trace and the failing index, if any. -/
def send_message (failsAt : Nat → Bool) (email_bodies email_subjects to_emails : List String) :
    List Event × Option Nat :=
  let r := sendLoop failsAt 0 (zip3 email_bodies email_subjects to_emails)
  (Event.authorize :: r.1, r.2)

/-! ## Tabular result and its JSON form: src/archive/snowflakeConnector.py

fetch_data_as_json converts the fetched table with
pandas DataFrame.to_json(orient='index') and process_snowflake_query parses
the string back with json.loads.  Both library functions are modelled at
full fidelity for printable-ASCII data: a compact JSON serializer that
escapes the quote, backslash and forward-slash characters (as pandas does),
and a parser for the produced two-level object shape. -/

/-- A scalar cell of a query result: string, number (dates are serialized as
epoch numbers by pandas), or null. -/
inductive JVal where
  | str (v : String)
  | num (v : Int)
  | null
deriving DecidableEq, Repr

/-- One parsed row: an ordered mapping from column name to value. -/
abbrev JRow := List (String × JVal)

/-- The parsed result: an ordered mapping from stringified row index to row. -/
abbrev JTable := List (String × JRow)

/-- The tabular warehouse result as fetched into the DataFrame. -/
structure ResultTable where
  columns : List String
  rows : List (List JVal)
deriving DecidableEq, Repr

/-- The index-oriented view of a table: row i becomes the entry
(toString i, columns zipped with the row), in row order. -/
def indexedTable (t : ResultTable) : JTable :=
  t.rows.enum.map (fun p => (toString p.1, t.columns.zip p.2))

/-- JSON string escaping as performed by pandas to_json on printable ASCII:
quote, backslash and forward slash get a backslash prefix. -/
def escChar (c : Char) : List Char :=
  if c = '"' ∨ c = '\\' ∨ c = '/' then ['\\', c] else [c]

/-- Serialize a string literal with surrounding quotes. -/
def serStr (s : String) : List Char :=
  '"' :: (s.data.flatMap escChar ++ ['"'])

/-- The character of a decimal digit. -/
def digitChar (d : Nat) : Char := Char.ofNat (48 + d)

/-- Little-endian decimal digits of n, with explicit fuel (fuel ≥ n suffices). -/
def natToDigits : Nat → Nat → List Nat
  | 0, _ => []
  | fuel + 1, n => if n = 0 then [] else n % 10 :: natToDigits fuel (n / 10)

/-- Decimal representation of a natural number. -/
def serNat (n : Nat) : List Char :=
  if n = 0 then ['0'] else ((natToDigits n n).reverse).map digitChar

/-- Decimal representation of an integer. -/
def serInt (i : Int) : List Char :=
  if i < 0 then '-' :: serNat i.natAbs else serNat i.natAbs

/-- Serialize one scalar value. -/
def serVal : JVal → List Char
  | JVal.str v => serStr v
  | JVal.num i => serInt i
  | JVal.null => ['n', 'u', 'l', 'l']

/-- Serialize the comma-separated entries of a nonempty object. -/
def serEntries1 (serV : α → List Char) (k : String) (v : α) : List (String × α) → List Char
  | [] => serStr k ++ ':' :: serV v
  | (k2, v2) :: rest => serStr k ++ ':' :: serV v ++ ',' :: serEntries1 serV k2 v2 rest

/-- Serialize an object: braces around the comma-separated entries. -/
def serObj (serV : α → List Char) : List (String × α) → List Char
  | [] => ['\x7b', '\x7d']
  | (k, v) :: rest => '\x7b' :: (serEntries1 serV k v rest ++ ['\x7d'])

/-- fetch_data_as_json's conversion (src/archive/snowflakeConnector.py line 27):
the index-oriented JSON text of the fetched table. -/
def to_json_index (t : ResultTable) : String :=
  String.mk (serObj (fun r => serObj serVal r) (indexedTable t))

/-- JSON escape-sequence decoding (json.loads): named escapes plus identity on
quote, backslash and slash. -/
def unescapeChar (c : Char) : Char :=
  if c = 'n' then '\n' else if c = 't' then '\t' else if c = 'r' then '\r'
  else if c = 'b' then '\x08' else if c = 'f' then '\x0c' else c

/-- Parse a string body up to the closing quote, decoding escapes. -/
def parseStrBody : List Char → Option (List Char × List Char)
  | [] => none
  | c :: rest =>
    if c = '"' then some ([], rest)
    else if c = '\\' then
      match rest with
      | [] => none
      | e :: rest2 => (parseStrBody rest2).map (fun p => (unescapeChar e :: p.1, p.2))
    else (parseStrBody rest).map (fun p => (c :: p.1, p.2))

/-- Parse a quoted string literal. -/
def parseString (l : List Char) : Option (String × List Char) :=
  match l with
  | [] => none
  | c :: rest =>
    if c = '"' then (parseStrBody rest).map (fun p => (String.mk p.1, p.2)) else none

/-- Consume decimal digits greedily, accumulating their value. -/
def parseNatAux (acc : Nat) : List Char → Nat × List Char
  | [] => (acc, [])
  | c :: rest =>
    if c.isDigit then parseNatAux (acc * 10 + (c.toNat - 48)) rest else (acc, c :: rest)

/-- Parse a natural number literal (at least one digit). -/
def parseNat (l : List Char) : Option (Nat × List Char) :=
  match l with
  | [] => none
  | c :: rest => if c.isDigit then some (parseNatAux (c.toNat - 48) rest) else none

/-- Parse an integer literal with optional minus sign. -/
def parseInt (l : List Char) : Option (Int × List Char) :=
  match l with
  | [] => none
  | c :: rest =>
    if c = '-' then (parseNat rest).map (fun p => (-(p.1 : Int), p.2))
    else (parseNat (c :: rest)).map (fun p => ((p.1 : Int), p.2))

/-- Parse one scalar value: string, null, or number. -/
def parseVal (l : List Char) : Option (JVal × List Char) :=
  match l with
  | [] => none
  | c :: rest =>
    if c = '"' then (parseStrBody rest).map (fun p => (JVal.str (String.mk p.1), p.2))
    else if c = 'n' then
      match rest with
      | 'u' :: 'l' :: 'l' :: rest2 => some (JVal.null, rest2)
      | _ => none
    else (parseInt (c :: rest)).map (fun p => (JVal.num p.1, p.2))

/-- Parse the comma-separated entries of a nonempty object body, up to and
including the closing brace; fuel bounds the number of entries. -/
def parseEntries (parseV : List Char → Option (α × List Char)) :
    Nat → List Char → Option (List (String × α) × List Char)
  | 0, _ => none
  | fuel + 1, l =>
    match parseString l with
    | none => none
    | some (k, r1) =>
      match r1 with
      | ':' :: r2 =>
        match parseV r2 with
        | none => none
        | some (v, r3) =>
          match r3 with
          | ',' :: r4 => (parseEntries parseV fuel r4).map (fun p => ((k, v) :: p.1, p.2))
          | '\x7d' :: r4 => some ([(k, v)], r4)
          | _ => none
      | _ => none

/-- Parse an object. -/
def parseObj (parseV : List Char → Option (α × List Char)) (fuel : Nat) (l : List Char) :
    Option (List (String × α) × List Char) :=
  match l with
  | '\x7b' :: '\x7d' :: rest => some ([], rest)
  | '\x7b' :: rest => parseEntries parseV fuel rest
  | _ => none

/-- json.loads restricted to the two-level object shape produced by
to_json_index; fails on trailing input. -/
def json_loads (s : String) : Option JTable :=
  match parseObj (fun l2 => parseObj parseVal s.data.length l2) s.data.length s.data with
  | some (t, []) => some t
  | _ => none

/-! ## Warehouse client: src/archive/snowflakeConnector.py

The process-wide state (the Flask current_app object, which either has a
snowflake_connection attribute or not) and the outside world (connection
allocation, closed handles, and an injected fault point standing for any
exception raised by the vendor SDK or by parsing) are passed explicitly. -/

/-- The fixed connection configuration (src/archive/snowflakeConnector.py
lines 9-17). -/
structure SnowflakeConfig where
  authenticator : String
  user : String
  account : String
  database : String
  schemaName : String
  warehouse : String
deriving DecidableEq, Repr

/-- The hard-coded configuration values. -/
def snowflakeConfig : SnowflakeConfig :=
  { authenticator := "externalbrowser"
    user := "CAMERON.MICHIE@ABLY.COM"
    account := "hk06212.eu-west-1"
    database := "ABLY_ANALYTICS_PRODUCTION"
    schemaName := "MODELLED_COMMERCIAL"
    warehouse := "VW_CLIENTS_PRODUCTION" }

/-- A connection handle: an allocation identity plus the configuration it was
created with. -/
structure Conn where
  id : Nat
  config : SnowflakeConfig
deriving DecidableEq, Repr

/-- Where an injected failure strikes inside the try block of
process_snowflake_query: connection creation, query execution, or parsing. -/
inductive FailPoint where
  | connect
  | query
  | parse
deriving DecidableEq, Repr

/-- Python exceptions observable in this program. -/
inductive PyError where
  | keyError (k : String)
  | attributeError (a : String)
  | connectError
  | queryError
  | parseError
  | sendError (i : Nat)
deriving DecidableEq, Repr

/-- The world outside the process: the next fresh connection identity, the
table the warehouse would return, the injected fault point (none for a clean
run), and the identities of closed connections. -/
structure World where
  nextConnId : Nat
  table : ResultTable
  failAt : Option FailPoint
  closedIds : List Nat
deriving DecidableEq, Repr

/-- The process-wide state: the optional snowflake_connection attribute of the
Flask current_app object. -/
structure AppState where
  snowflake_connection : Option Conn
deriving DecidableEq, Repr

/-- get_snowflake_connection (src/archive/snowflakeConnector.py lines 6-20):
return the existing connection if the attribute is present; otherwise connect
with the fixed configuration, record the handle in process-wide state, and
return it.  Creation raises if the world injects a connect fault. -/
def get_snowflake_connection (app : AppState) (w : World) :
    Except PyError Conn × AppState × World :=
  match app.snowflake_connection with
  | some c => (Except.ok c, app, w)
  | none =>
    if w.failAt = some FailPoint.connect then (Except.error PyError.connectError, app, w)
    else
      let c : Conn := { id := w.nextConnId, config := snowflakeConfig }
      (Except.ok c, { snowflake_connection := some c },
        { w with nextConnId := w.nextConnId + 1 })

/-- fetch_data_as_json (src/archive/snowflakeConnector.py lines 22-27): ensure
the connection, execute the query, and return the index-oriented JSON text of
the fetched table.  Execution raises if the world injects a query fault. -/
def fetch_data_as_json (app : AppState) (w : World) :
    Except PyError String × AppState × World :=
  match get_snowflake_connection app w with
  | (Except.error e, app1, w1) => (Except.error e, app1, w1)
  | (Except.ok _, app1, w1) =>
    if w1.failAt = some FailPoint.query then (Except.error PyError.queryError, app1, w1)
    else (Except.ok (to_json_index w1.table), app1, w1)

/-- json.loads as called by process_snowflake_query, with the world's injected
parse fault standing for any exception raised at that point. -/
def json_loads_faulty (w : World) (s : String) : Except PyError JTable :=
  if w.failAt = some FailPoint.parse then Except.error PyError.parseError
  else
    match json_loads s with
    | some t => Except.ok t
    | none => Except.error PyError.parseError

/-- process_snowflake_query (src/archive/snowflakeConnector.py lines 29-41):
fetch and parse inside a try block; on any exception, run the except block,
which calls close() on the snowflake_connection attribute (raising
AttributeError if the attribute was never set), deletes the attribute, and
re-raises the original exception. -/
def process_snowflake_query (app : AppState) (w : World) :
    Except PyError JTable × AppState × World :=
  let attempt : Except PyError JTable × AppState × World :=
    match fetch_data_as_json app w with
    | (Except.error e, app1, w1) => (Except.error e, app1, w1)
    | (Except.ok s, app1, w1) =>
      match json_loads_faulty w1 s with
      | Except.error e => (Except.error e, app1, w1)
      | Except.ok parsed => (Except.ok parsed, app1, w1)
  match attempt with
  | (Except.ok v, app1, w1) => (Except.ok v, app1, w1)
  | (Except.error e, app1, w1) =>
    match app1.snowflake_connection with
    | some c =>
      (Except.error e, { snowflake_connection := none },
        { w1 with closedIds := c.id :: w1.closedIds })
    | none => (Except.error (PyError.attributeError "snowflake_connection"), app1, w1)

/-! ## HTTP façade: src/app.py and src/archive/app.py -/

/-- A JSON object of the request body, with string fields. -/
abbrev JObj := List (String × String)

/-- Python dict subscription: the value at the key, or KeyError. -/
def pyGetItem (o : JObj) (k : String) : Except PyError String :=
  match o.lookup k with
  | some v => Except.ok v
  | none => Except.error (PyError.keyError k)

/-- The extraction loop of the send_emails handler (src/archive/app.py lines
20-24): one pass over the descriptor array, appending emailHtml, emailSubject
and USER_EMAIL of each descriptor to the three parallel lists; a missing key
raises KeyError out of the loop. -/
def extractEmailData : List JObj → Except PyError (List String × List String × List String)
  | [] => Except.ok ([], [], [])
  | o :: rest => do
    let body ← pyGetItem o "emailHtml"
    let subj ← pyGetItem o "emailSubject"
    let toE ← pyGetItem o "USER_EMAIL"
    let r ← extractEmailData rest
    Except.ok (body :: r.1, subj :: r.2.1, toE :: r.2.2)

/-- An HTTP response: the JSON body as an ordered object, and the status. -/
structure HttpResponse where
  body : List (String × String)
  status : Nat
deriving DecidableEq, Repr

/-- The fixed confirmation response of send_emails (src/archive/app.py
line 26), typo included. -/
def confirmResponse : HttpResponse :=
  { body := [("messaga", "Emails received and processed successfully!")], status := 200 }

/-- The send_emails handler (src/archive/app.py lines 16-26): extract the three
parallel sequences in array order, dispatch them with send_message, and on
success return the fixed confirmation with status 200.  The response and the
event trace of the dispatch are both returned; a KeyError during extraction
propagates before any event happens. -/
def send_emails (failsAt : Nat → Bool) (allEmailData : List JObj) :
    Except PyError HttpResponse × List Event :=
  match extractEmailData allEmailData with
  | Except.error e => (Except.error e, [])
  | Except.ok lists =>
    let r := send_message failsAt lists.1 lists.2.1 lists.2.2
    match r.2 with
    | some i => (Except.error (PyError.sendError i), r.1)
    | none => (Except.ok confirmResponse, r.1)

/-- A registered route: its allowed methods and its path. -/
structure Route where
  methods : List String
  path : String
deriving DecidableEq, Repr

/-- The routes registered by src/app.py, in registration order (GET is the
Flask default when no methods are given). -/
def app_routes : List Route :=
  [{ methods := ["POST"], path := "/run_script" },
   { methods := ["GET"], path := "/" }]

/-- The routes registered by src/archive/app.py, in registration order. -/
def archive_app_routes : List Route :=
  [{ methods := ["POST"], path := "/run_script" },
   { methods := ["POST"], path := "/send_emails" },
   { methods := ["GET"], path := "/" }]

/-- The value of a little-endian decimal digit list. -/
def ofLE : List Nat → Nat
  | [] => 0
  | d :: ds => d + 10 * ofLE ds

/-- The next character to parse, if any, is not a decimal digit. -/
def noDigitHead (l : List Char) : Prop := ∀ c ∈ l.head?, c.isDigit = false

/-- An empty result table, for concrete scenarios. -/
def emptyTable : ResultTable := { columns := [], rows := [] }

/-- A fresh world carrying a chosen fault point, for concrete scenarios. -/
def worldWith (fp : Option FailPoint) : World :=
  { nextConnId := 0, table := emptyTable, failAt := fp, closedIds := [] }

/-- The process state with no recorded connection, for concrete scenarios. -/
def freshApp : AppState := { snowflake_connection := none }

/-! ## Batch dispatch lemmas -/

/-- Without a fault, the loop sends one message per triple, in order. -/
theorem sendLoop_noFail (i : Nat) (l : List (String × String × String)) :
    sendLoop (fun _ => false) i l =
      (l.map (fun x => Event.send senderAddress x.2.2 x.2.1 x.1), none) := by
  induction l generalizing i with
  | nil => rfl
  | cons hd tl ih =>
    obtain ⟨b, s, t⟩ := hd
    simp [sendLoop, ih]

/-- Positional access into the zipped triple list. -/
theorem zip3_getElem? : ∀ (b s t : List String) (i : Nat) (bi si ti : String),
    b[i]? = some bi → s[i]? = some si → t[i]? = some ti →
    (zip3 b s t)[i]? = some (bi, si, ti)
  | bh :: bt, sh :: st, th :: tt, 0, bi, si, ti, hb, hs, ht => by
    simp_all [zip3]
  | bh :: bt, sh :: st, th :: tt, i + 1, bi, si, ti, hb, hs, ht => by
    simpa [zip3] using zip3_getElem? bt st tt i bi si ti (by simpa using hb)
      (by simpa using hs) (by simpa using ht)
  | [], _, _, _, _, _, _, hb, _, _ => by simp at hb
  | _ :: _, [], _, _, _, _, _, _, hs, _ => by simp at hs
  | _ :: _, _ :: _, [], _, _, _, _, _, _, ht => by simp at ht

/-- The zipped triple list truncates to the shortest input. -/
theorem zip3_length (b s t : List String) :
    (zip3 b s t).length = min b.length (min s.length t.length) := by
  simp [zip3]

/-- If the send at offset i (relative to the start index k) fails, the loop
issues the sends before it and the failing one, then stops. -/
theorem sendLoop_abort (fails : Nat → Bool) :
    ∀ (l : List (String × String × String)) (k i : Nat),
      i < l.length → fails (k + i) = true → (∀ j, j < i → fails (k + j) = false) →
      sendLoop fails k l =
        ((l.take (i + 1)).map (fun x => Event.send senderAddress x.2.2 x.2.1 x.1),
          some (k + i))
  | [], _, i, hi, _, _ => by simp at hi
  | (b, s, t) :: rest, k, 0, _, hf, _ => by
    simp only [Nat.add_zero] at hf
    simp [sendLoop, hf]
  | (b, s, t) :: rest, k, i + 1, hi, hf, hb => by
    have h0 : fails k = false := by simpa using hb 0 (Nat.succ_pos i)
    have hf' : fails (k + 1 + i) = true := by
      have : k + 1 + i = k + (i + 1) := by omega
      rw [this]; exact hf
    have hb' : ∀ j, j < i → fails (k + 1 + j) = false := by
      intro j hj
      have : k + 1 + j = k + (j + 1) := by omega
      rw [this]; exact hb (j + 1) (by omega)
    have ih := sendLoop_abort fails rest (k + 1) i (by simpa using Nat.lt_of_succ_lt_succ hi)
      hf' hb'
    have harith : k + 1 + i = k + (i + 1) := by omega
    simp [sendLoop, h0, ih, harith]

/-- C1: with three equal-length sequences of length N, send_message authorizes
once and issues exactly N send calls, in input order, the i-th built from
body i, subject i and recipient i; an empty batch issues no send after
authorization, and duplicate recipients are sent independently in order. -/
theorem sendBatch_exact_sends (b s t : List String)
    (hs : s.length = b.length) (ht : t.length = b.length) :
    (send_message (fun _ => false) b s t).2 = none ∧
    (send_message (fun _ => false) b s t).1.length = b.length + 1 ∧
    (send_message (fun _ => false) b s t).1.head? = some Event.authorize ∧
    (b = [] → (send_message (fun _ => false) b s t).1 = [Event.authorize]) ∧
    (∀ i bi si ti, b[i]? = some bi → s[i]? = some si → t[i]? = some ti →
      (send_message (fun _ => false) b s t).1[i + 1]? =
        some (Event.send senderAddress ti si bi)) := by
  refine ⟨?_, ?_, ?_, ?_, ?_⟩
  · simp [send_message, sendLoop_noFail]
  · simp [send_message, sendLoop_noFail, zip3_length, hs, ht]
  · simp [send_message]
  · intro hb
    subst hb
    simp [send_message, sendLoop_noFail, zip3]
  · intro i bi si ti hb hsi hti
    have hz := zip3_getElem? b s t i bi si ti hb hsi hti
    simp [send_message, sendLoop_noFail, hz]

/-- Witness for C1: a batch of three with a duplicated recipient; the second
send pairs body B1 with subject S1 and the duplicated recipient. -/
theorem sendBatch_exact_sends_witness :
    (["S0", "S1", "S2"] : List String).length = (["B0", "B1", "B2"] : List String).length ∧
    (send_message (fun _ => false) ["B0", "B1", "B2"] ["S0", "S1", "S2"]
        ["r@x", "r@x", "q@x"]).1[2]? =
      some (Event.send senderAddress "r@x" "S1" "B1") :=
  ⟨rfl, (sendBatch_exact_sends ["B0", "B1", "B2"] ["S0", "S1", "S2"] ["r@x", "r@x", "q@x"]
    rfl rfl).2.2.2.2 1 "B1" "S1" "r@x" rfl rfl rfl⟩

/-- C5: if the send at position i fails, the sends before it were issued, the
failing send was attempted, no send after position i is attempted, and the
failure propagates to the caller. -/
theorem sendBatch_abort_on_failure (fails : Nat → Bool) (b s t : List String) (i : Nat)
    (hs : s.length = b.length) (ht : t.length = b.length) (hi : i < b.length)
    (hf : fails i = true) (hb : ∀ j, j < i → fails j = false) :
    (send_message fails b s t).2 = some i ∧
    (send_message fails b s t).1.length = i + 2 ∧
    (send_message fails b s t).1 =
      Event.authorize ::
        ((zip3 b s t).take (i + 1)).map (fun x => Event.send senderAddress x.2.2 x.2.1 x.1) := by
  have hlen : i < (zip3 b s t).length := by
    rw [zip3_length, hs, ht]
    simpa using hi
  have hloop := sendLoop_abort fails (zip3 b s t) 0 i hlen (by simpa using hf)
    (by simpa using hb)
  refine ⟨?_, ?_, ?_⟩
  · simp [send_message, hloop]
  · have : i + 1 ≤ (zip3 b s t).length := hlen
    simp [send_message, hloop, Nat.min_eq_left this]
  · simp [send_message, hloop]

/-- Witness for C5: the second of three sends fails; the first two sends
happened, the third was never attempted, and the failure index propagates. -/
theorem sendBatch_abort_on_failure_witness :
    (1 : Nat) < 3 ∧
    (send_message (fun j => j == 1) ["B0", "B1", "B2"] ["S0", "S1", "S2"]
        ["r@x", "r@x", "q@x"]).2 = some 1 ∧
    (send_message (fun j => j == 1) ["B0", "B1", "B2"] ["S0", "S1", "S2"]
        ["r@x", "r@x", "q@x"]).1.length = 3 :=
  ⟨by decide,
    (sendBatch_abort_on_failure (fun j => j == 1) ["B0", "B1", "B2"] ["S0", "S1", "S2"]
      ["r@x", "r@x", "q@x"] 1 rfl rfl (by decide) (by decide) (by decide)).1,
    (sendBatch_abort_on_failure (fun j => j == 1) ["B0", "B1", "B2"] ["S0", "S1", "S2"]
      ["r@x", "r@x", "q@x"] 1 rfl rfl (by decide) (by decide) (by decide)).2.1⟩

/-- C9: with sequences of unequal lengths, send_message raises no error and
sends exactly min of the three lengths messages, silently dropping the
trailing elements of the longer sequences. -/
theorem sendBatch_truncates (b s t : List String) :
    (send_message (fun _ => false) b s t).2 = none ∧
    (send_message (fun _ => false) b s t).1 =
      Event.authorize ::
        (zip3 b s t).map (fun x => Event.send senderAddress x.2.2 x.2.1 x.1) ∧
    (zip3 b s t).length = min b.length (min s.length t.length) := by
  refine ⟨?_, ?_, zip3_length b s t⟩ <;> simp [send_message, sendLoop_noFail]

/-- C3: the output of create_message is the base64url encoding of the
serialized multipart/alternative MIME message; the message carries the fixed
blind-copy header, the serialization contains the blind-copy line, and the
parts include an HTML-typed part — for every sender, recipient, subject and
body, empty strings included. -/
theorem buildMessage_bcc_and_html (boundary sender toAddr subject html : String) :
    (create_message boundary sender toAddr subject html).raw =
      String.mk (base64urlEncode (strBytes (joinLines (renderLines boundary
        (create_message_mime sender toAddr subject html))))) ∧
    ("bcc", bccAddress) ∈ (create_message_mime sender toAddr subject html).headers ∧
    ("bcc: " ++ bccAddress) ∈
      renderLines boundary (create_message_mime sender toAddr subject html) ∧
    (create_message_mime sender toAddr subject html).subtype = "alternative" ∧
    ∃ p ∈ (create_message_mime sender toAddr subject html).parts,
      p.contentType = "text/html" := by
  refine ⟨rfl, by simp [create_message_mime], ?_, rfl, ?_⟩
  · have hmem : ("bcc" ++ ": " ++ bccAddress) ∈
        renderLines boundary (create_message_mime sender toAddr subject html) := by
      simp [renderLines, create_message_mime]
    have heq : ("bcc: " ++ bccAddress) = "bcc" ++ ": " ++ bccAddress := by decide
    rw [heq]
    exact hmem
  · exact ⟨{ contentType := "text/html", content := html }, by simp [create_message_mime], rfl⟩

/-- C8 counterexample: CPython draws the multipart boundary from the process
RNG at serialization time, and the encoded output depends on it; with
identical sender, recipient, subject and body but different boundary states,
the outputs differ. -/
theorem buildMessage_boundary_dependence :
    create_message "b0" "s@x.com" "r@x.com" "Hi" "<p>hi</p>" ≠
      create_message "b1" "s@x.com" "r@x.com" "Hi" "<p>hi</p>" := by decide

/-- C8 amended: create_message performs no I/O and is deterministic given the
multipart boundary: with the same boundary state and the same four arguments,
two invocations return the same encoded output. -/
theorem buildMessage_deterministic (boundary s1 r1 u1 h1 s2 r2 u2 h2 : String)
    (hs : s1 = s2) (hr : r1 = r2) (hu : u1 = u2) (hh : h1 = h2) :
    create_message boundary s1 r1 u1 h1 = create_message boundary s2 r2 u2 h2 := by
  rw [hs, hr, hu, hh]

/-- Witness for the amended C8 at concrete arguments. -/
theorem buildMessage_deterministic_witness :
    ("Hi" : String) = "Hi" ∧
    create_message "b0" "s@x.com" "r@x.com" "Hi" "<p>hi</p>" =
      create_message "b0" "s@x.com" "r@x.com" "Hi" "<p>hi</p>" :=
  ⟨rfl, buildMessage_deterministic "b0" "s@x.com" "r@x.com" "Hi" "<p>hi</p>"
    "s@x.com" "r@x.com" "Hi" "<p>hi</p>" rfl rfl rfl rfl⟩

/-! ## Connection lifecycle lemmas -/

/-- With no recorded connection and no connect fault, get_snowflake_connection
creates a connection with the fixed configuration and records it. -/
theorem get_snowflake_connection_creates (w2 : World) (h2 : w2.failAt ≠ some FailPoint.connect) :
    get_snowflake_connection { snowflake_connection := none } w2 =
      (Except.ok { id := w2.nextConnId, config := snowflakeConfig },
        { snowflake_connection := some { id := w2.nextConnId, config := snowflakeConfig } },
        { w2 with nextConnId := w2.nextConnId + 1 }) := by
  simp [get_snowflake_connection, h2]

/-- C7: get_snowflake_connection is a lazy process-wide singleton: the first
call creates the connection with the fixed configuration and records it; every
subsequent call returns that same handle with no state change, so at most one
connection is ever allocated. -/
theorem ensureConnection_singleton (app : AppState) (w : World)
    (habs : app.snowflake_connection = none) (hok : w.failAt ≠ some FailPoint.connect) :
    ∃ c : Conn,
      get_snowflake_connection app w =
        (Except.ok c, { snowflake_connection := some c },
          { w with nextConnId := w.nextConnId + 1 }) ∧
      c.config = snowflakeConfig ∧
      ∀ w2 : World,
        get_snowflake_connection { snowflake_connection := some c } w2 =
          (Except.ok c, { snowflake_connection := some c }, w2) := by
  obtain ⟨oc⟩ := app
  simp only at habs
  subst habs
  exact ⟨{ id := w.nextConnId, config := snowflakeConfig },
    get_snowflake_connection_creates w hok, rfl, fun w2 => rfl⟩

/-- Witness for C7 from the empty process state. -/
theorem ensureConnection_singleton_witness :
    freshApp.snowflake_connection = none ∧
    ∃ c : Conn,
      get_snowflake_connection freshApp (worldWith none) =
        (Except.ok c, { snowflake_connection := some c },
          { worldWith none with nextConnId := (worldWith none).nextConnId + 1 }) ∧
      c.config = snowflakeConfig ∧
      ∀ w2 : World,
        get_snowflake_connection { snowflake_connection := some c } w2 =
          (Except.ok c, { snowflake_connection := some c }, w2) :=
  ⟨rfl, ensureConnection_singleton freshApp (worldWith none) rfl (by decide)⟩

/-- C2 counterexample: a failure during connection creation, with no existing
connection.  The except block calls close() on the never-set attribute, so an
AttributeError propagates in place of the original connection error, and no
connection is closed — refuting the claim for the connection-creation case. -/
theorem processQuery_connect_failure_counterexample :
    (process_snowflake_query freshApp (worldWith (some FailPoint.connect))).1 =
      Except.error (PyError.attributeError "snowflake_connection") ∧
    PyError.attributeError "snowflake_connection" ≠ PyError.connectError ∧
    (process_snowflake_query freshApp (worldWith (some FailPoint.connect))).2.2.closedIds =
      [] ∧
    (process_snowflake_query freshApp
      (worldWith (some FailPoint.connect))).2.1.snowflake_connection = none :=
  ⟨rfl, by decide, rfl, rfl⟩

/-- C2 amended: for a failure during query execution or result parsing, the
connection in use (pre-existing or created during the call) is closed and the
attribute removed before the original error propagates, and a subsequent call
re-creates a connection instead of reusing a stale handle.  (For a failure
during connection creation the cleanup itself raises AttributeError, which
propagates instead of the original error — see the counterexample.) -/
theorem processQuery_failure_cleanup (app : AppState) (w : World)
    (h : w.failAt = some FailPoint.query ∨ w.failAt = some FailPoint.parse) :
    ∃ c : Conn,
      (app.snowflake_connection = some c ∨
        (app.snowflake_connection = none ∧
          c = { id := w.nextConnId, config := snowflakeConfig })) ∧
      (process_snowflake_query app w).2.1.snowflake_connection = none ∧
      (process_snowflake_query app w).2.2.closedIds = c.id :: w.closedIds ∧
      (w.failAt = some FailPoint.query →
        (process_snowflake_query app w).1 = Except.error PyError.queryError) ∧
      (w.failAt = some FailPoint.parse →
        (process_snowflake_query app w).1 = Except.error PyError.parseError) ∧
      (∀ w2 : World, w2.failAt ≠ some FailPoint.connect →
        get_snowflake_connection (process_snowflake_query app w).2.1 w2 =
          (Except.ok { id := w2.nextConnId, config := snowflakeConfig },
            { snowflake_connection := some { id := w2.nextConnId, config := snowflakeConfig } },
            { w2 with nextConnId := w2.nextConnId + 1 })) := by
  obtain ⟨oc⟩ := app
  match oc with
  | some c =>
    refine ⟨c, Or.inl rfl, ?_⟩
    rcases h with hq | hp
    · simp [process_snowflake_query, fetch_data_as_json, get_snowflake_connection,
        json_loads_faulty, hq]
    · simp [process_snowflake_query, fetch_data_as_json, get_snowflake_connection,
        json_loads_faulty, hp]
  | none =>
    refine ⟨{ id := w.nextConnId, config := snowflakeConfig }, Or.inr ⟨rfl, rfl⟩, ?_⟩
    have hnc : w.failAt ≠ some FailPoint.connect := by
      rcases h with hq | hp
      · rw [hq]; decide
      · rw [hp]; decide
    have hget := get_snowflake_connection_creates w hnc
    rcases h with hq | hp
    · simp [process_snowflake_query, fetch_data_as_json, hget, json_loads_faulty, hq]
      exact fun w2 h2 => get_snowflake_connection_creates w2 h2
    · simp [process_snowflake_query, fetch_data_as_json, hget, json_loads_faulty, hp]
      exact fun w2 h2 => get_snowflake_connection_creates w2 h2

/-- Witness for the amended C2: a query fault at the empty process state. -/
theorem processQuery_failure_cleanup_witness :
    ((worldWith (some FailPoint.query)).failAt = some FailPoint.query ∨
      (worldWith (some FailPoint.query)).failAt = some FailPoint.parse) ∧
    ∃ c : Conn,
      (freshApp.snowflake_connection = some c ∨
        (freshApp.snowflake_connection = none ∧
          c = { id := (worldWith (some FailPoint.query)).nextConnId,
                config := snowflakeConfig })) ∧
      (process_snowflake_query freshApp
        (worldWith (some FailPoint.query))).2.1.snowflake_connection = none ∧
      (process_snowflake_query freshApp (worldWith (some FailPoint.query))).2.2.closedIds =
        c.id :: (worldWith (some FailPoint.query)).closedIds ∧
      ((worldWith (some FailPoint.query)).failAt = some FailPoint.query →
        (process_snowflake_query freshApp (worldWith (some FailPoint.query))).1 =
          Except.error PyError.queryError) ∧
      ((worldWith (some FailPoint.query)).failAt = some FailPoint.parse →
        (process_snowflake_query freshApp (worldWith (some FailPoint.query))).1 =
          Except.error PyError.parseError) ∧
      (∀ w2 : World, w2.failAt ≠ some FailPoint.connect →
        get_snowflake_connection
            (process_snowflake_query freshApp (worldWith (some FailPoint.query))).2.1 w2 =
          (Except.ok { id := w2.nextConnId, config := snowflakeConfig },
            { snowflake_connection := some { id := w2.nextConnId, config := snowflakeConfig } },
            { w2 with nextConnId := w2.nextConnId + 1 })) :=
  ⟨Or.inl rfl, processQuery_failure_cleanup freshApp (worldWith (some FailPoint.query))
    (Or.inl rfl)⟩

/-! ## Handler lemmas -/

/-- A missing key among the three descriptor fields makes the extraction loop
raise KeyError. -/
theorem extractEmailData_missing_key :
    ∀ (data : List JObj) (o : JObj) (k : String),
      o ∈ data → (k = "emailHtml" ∨ k = "emailSubject" ∨ k = "USER_EMAIL") →
      o.lookup k = none →
      ∃ e, extractEmailData data = Except.error (PyError.keyError e)
  | [], o, k, ho, _, _ => by simp at ho
  | hd :: tl, o, k, ho, hk, hmiss => by
    rcases List.mem_cons.mp ho with rfl | hmem
    · match h1 : o.lookup "emailHtml" with
      | none => exact ⟨"emailHtml", by simp [extractEmailData, pyGetItem, h1, Bind.bind, Except.bind]⟩
      | some b =>
        match h2 : o.lookup "emailSubject" with
        | none => exact ⟨"emailSubject", by simp [extractEmailData, pyGetItem, h1, h2, Bind.bind, Except.bind]⟩
        | some s =>
          match h3 : o.lookup "USER_EMAIL" with
          | none => exact ⟨"USER_EMAIL", by simp [extractEmailData, pyGetItem, h1, h2, h3, Bind.bind, Except.bind]⟩
          | some u =>
            exfalso
            rcases hk with rfl | rfl | rfl
            · rw [hmiss] at h1; exact Option.noConfusion h1
            · rw [hmiss] at h2; exact Option.noConfusion h2
            · rw [hmiss] at h3; exact Option.noConfusion h3
    · obtain ⟨e, he⟩ := extractEmailData_missing_key tl o k hmem hk hmiss
      match h1 : hd.lookup "emailHtml" with
      | none => exact ⟨"emailHtml", by simp [extractEmailData, pyGetItem, h1, Bind.bind, Except.bind]⟩
      | some b =>
        match h2 : hd.lookup "emailSubject" with
        | none => exact ⟨"emailSubject", by simp [extractEmailData, pyGetItem, h1, h2, Bind.bind, Except.bind]⟩
        | some s =>
          match h3 : hd.lookup "USER_EMAIL" with
          | none => exact ⟨"USER_EMAIL", by simp [extractEmailData, pyGetItem, h1, h2, h3, Bind.bind, Except.bind]⟩
          | some u => exact ⟨e, by simp [extractEmailData, pyGetItem, h1, h2, h3, he, Bind.bind, Except.bind]⟩

/-- With all three keys present on every descriptor, the extraction loop
returns the three parallel projections in array order. -/
theorem extractEmailData_ok :
    ∀ (data : List JObj),
      (∀ o ∈ data, (o.lookup "emailHtml").isSome = true ∧
        (o.lookup "emailSubject").isSome = true ∧ (o.lookup "USER_EMAIL").isSome = true) →
      extractEmailData data =
        Except.ok (data.map (fun o => (o.lookup "emailHtml").getD ""),
          data.map (fun o => (o.lookup "emailSubject").getD ""),
          data.map (fun o => (o.lookup "USER_EMAIL").getD ""))
  | [], _ => rfl
  | hd :: tl, h => by
    obtain ⟨h1, h2, h3⟩ := h hd (List.mem_cons_self hd tl)
    obtain ⟨b, hb⟩ := Option.isSome_iff_exists.mp h1
    obtain ⟨s, hs⟩ := Option.isSome_iff_exists.mp h2
    obtain ⟨u, hu⟩ := Option.isSome_iff_exists.mp h3
    have ih := extractEmailData_ok tl (fun o ho => h o (List.mem_cons_of_mem hd ho))
    simp [extractEmailData, pyGetItem, hb, hs, hu, ih, Bind.bind, Except.bind]

/-- C4: the archive façade's HTTP surface comprises exactly GET /,
POST /run_script and POST /send_emails; on a JSON array of complete
descriptors the send_emails handler builds the three parallel sequences in
array order, dispatches them, and returns the fixed confirmation with
status 200 once dispatch completes. -/
theorem http_surface_and_send_emails (data : List JObj)
    (h : ∀ o ∈ data, (o.lookup "emailHtml").isSome = true ∧
      (o.lookup "emailSubject").isSome = true ∧ (o.lookup "USER_EMAIL").isSome = true) :
    (∀ r : Route, r ∈ archive_app_routes ↔
      (r = { methods := ["GET"], path := "/" } ∨
        r = { methods := ["POST"], path := "/run_script" } ∨
        r = { methods := ["POST"], path := "/send_emails" })) ∧
    (send_emails (fun _ => false) data).1 = Except.ok confirmResponse ∧
    confirmResponse.status = 200 ∧
    (send_emails (fun _ => false) data).2 =
      Event.authorize :: data.map (fun o =>
        Event.send senderAddress ((o.lookup "USER_EMAIL").getD "")
          ((o.lookup "emailSubject").getD "") ((o.lookup "emailHtml").getD "")) := by
  have hex := extractEmailData_ok data h
  have hzip : zip3 (data.map (fun o => (o.lookup "emailHtml").getD ""))
      (data.map (fun o => (o.lookup "emailSubject").getD ""))
      (data.map (fun o => (o.lookup "USER_EMAIL").getD "")) =
      data.map (fun o => ((o.lookup "emailHtml").getD "",
        (o.lookup "emailSubject").getD "", (o.lookup "USER_EMAIL").getD "")) := by
    simp [zip3, List.zip_map']
  refine ⟨?_, ?_, rfl, ?_⟩
  · intro r
    constructor
    · intro hr
      simp [archive_app_routes] at hr
      tauto
    · intro hr
      simp [archive_app_routes]
      tauto
  · simp [send_emails, hex, send_message, hzip, sendLoop_noFail]
  · simp [send_emails, hex, send_message, hzip, sendLoop_noFail]

/-- Witness for C4: the end-to-end single-descriptor scenario. -/
theorem http_surface_and_send_emails_witness :
    ((([("emailHtml", "<p>hi</p>"), ("emailSubject", "Hi"), ("USER_EMAIL", "a@x.com")] :
      JObj).lookup "emailHtml").isSome = true) ∧
    (send_emails (fun _ => false)
        [[("emailHtml", "<p>hi</p>"), ("emailSubject", "Hi"), ("USER_EMAIL", "a@x.com")]]).1 =
      Except.ok confirmResponse ∧
    (send_emails (fun _ => false)
        [[("emailHtml", "<p>hi</p>"), ("emailSubject", "Hi"), ("USER_EMAIL", "a@x.com")]]).2 =
      [Event.authorize, Event.send senderAddress "a@x.com" "Hi" "<p>hi</p>"] :=
  ⟨rfl,
    (http_surface_and_send_emails
      [[("emailHtml", "<p>hi</p>"), ("emailSubject", "Hi"), ("USER_EMAIL", "a@x.com")]]
      (by decide)).2.1,
    (http_surface_and_send_emails
      [[("emailHtml", "<p>hi</p>"), ("emailSubject", "Hi"), ("USER_EMAIL", "a@x.com")]]
      (by decide)).2.2.2⟩

/-- C10: a batch in which any descriptor lacks one of the three keys fails
with KeyError during extraction, before authorization or any send: the
dispatch trace is empty. -/
theorem sendEmails_malformed_batch (failsAt : Nat → Bool) (data : List JObj)
    (o : JObj) (k : String) (ho : o ∈ data)
    (hk : k = "emailHtml" ∨ k = "emailSubject" ∨ k = "USER_EMAIL")
    (hmiss : o.lookup k = none) :
    (∃ e, (send_emails failsAt data).1 = Except.error (PyError.keyError e)) ∧
    (send_emails failsAt data).2 = [] := by
  obtain ⟨e, he⟩ := extractEmailData_missing_key data o k ho hk hmiss
  exact ⟨⟨e, by simp [send_emails, he]⟩, by simp [send_emails, he]⟩

/-- Witness for C10: one descriptor missing emailSubject yields KeyError and
an empty trace. -/
theorem sendEmails_malformed_batch_witness :
    (([("emailHtml", "x"), ("USER_EMAIL", "a@x.com")] : JObj).lookup "emailSubject" = none) ∧
    (∃ e, (send_emails (fun _ => false)
        [[("emailHtml", "x"), ("USER_EMAIL", "a@x.com")]]).1 =
      Except.error (PyError.keyError e)) ∧
    (send_emails (fun _ => false) [[("emailHtml", "x"), ("USER_EMAIL", "a@x.com")]]).2 = [] :=
  ⟨by decide, sendEmails_malformed_batch (fun _ => false)
    [[("emailHtml", "x"), ("USER_EMAIL", "a@x.com")]]
    [("emailHtml", "x"), ("USER_EMAIL", "a@x.com")] "emailSubject"
    (by simp) (Or.inr (Or.inl rfl)) (by decide)⟩

/-! ## JSON round-trip lemmas (for the conversion in fetch_data_as_json) -/

/-- Parsing a serialized string body recovers the characters and the rest. -/
theorem parseStrBody_ser (cs : List Char) (rest : List Char) :
    parseStrBody (cs.flatMap escChar ++ ('"' :: rest)) = some (cs, rest) := by
  induction cs with
  | nil => simp [parseStrBody.eq_def]
  | cons c cs ih =>
    by_cases hesc : c = '"' ∨ c = '\\' ∨ c = '/'
    · have h1 : escChar c = ['\\', c] := by simp [escChar, hesc]
      have huc : unescapeChar c = c := by
        rcases hesc with rfl | rfl | rfl <;> decide
      have hshape : (c :: cs).flatMap escChar ++ ('"' :: rest) =
          '\\' :: c :: (cs.flatMap escChar ++ ('"' :: rest)) := by
        simp [h1]
      rw [hshape, parseStrBody.eq_def]
      simp [huc, ih]
    · push_neg at hesc
      obtain ⟨h1, h2, h3⟩ := hesc
      have he : escChar c = [c] := by simp [escChar, h1, h2, h3]
      have hshape : (c :: cs).flatMap escChar ++ ('"' :: rest) =
          c :: (cs.flatMap escChar ++ ('"' :: rest)) := by
        simp [he]
      rw [hshape, parseStrBody.eq_def]
      simp [h1, h2, ih]

/-- Parsing a serialized string literal recovers the string and the rest. -/
theorem parseString_ser (s : String) (rest : List Char) :
    parseString (serStr s ++ rest) = some (s, rest) := by
  have hshape : serStr s ++ rest = '"' :: (s.data.flatMap escChar ++ ('"' :: rest)) := by
    simp [serStr]
  rw [hshape]
  simp [parseString, parseStrBody_ser]

/-- Digits of the decimal expansion are below the base. -/
theorem natToDigits_lt (fuel n : Nat) : ∀ d ∈ natToDigits fuel n, d < 10 := by
  induction fuel generalizing n with
  | zero => simp [natToDigits]
  | succ f ih =>
    intro d hd
    by_cases h : n = 0
    · simp [natToDigits, h] at hd
    · rw [natToDigits, if_neg h] at hd
      rcases List.mem_cons.mp hd with rfl | hmem
      · exact Nat.mod_lt _ (by norm_num)
      · exact ih _ d hmem

/-- The little-endian digits of n evaluate back to n. -/
theorem natToDigits_ofLE (fuel n : Nat) (h : n ≤ fuel) : ofLE (natToDigits fuel n) = n := by
  induction fuel generalizing n with
  | zero =>
    interval_cases n
    simp [natToDigits, ofLE]
  | succ f ih =>
    by_cases h0 : n = 0
    · simp [h0, natToDigits, ofLE]
    · have hlt : n / 10 < n := Nat.div_lt_self (Nat.pos_of_ne_zero h0) (by norm_num)
      have hdiv : n / 10 ≤ f := by omega
      rw [natToDigits, if_neg h0]
      simp only [ofLE, ih _ hdiv]
      omega

/-- A nonzero number has at least one digit. -/
theorem natToDigits_ne_nil (fuel n : Nat) (h0 : n ≠ 0) (h : n ≤ fuel) :
    natToDigits fuel n ≠ [] := by
  cases fuel with
  | zero => omega
  | succ f => simp [natToDigits, h0]

/-- A digit's character is a digit character. -/
theorem digitChar_isDigit (d : Nat) (h : d < 10) : (digitChar d).isDigit = true := by
  interval_cases d <;> decide

/-- Decoding a digit's character recovers the digit. -/
theorem digitChar_toNat (d : Nat) (h : d < 10) : (digitChar d).toNat - 48 = d := by
  interval_cases d <;> decide

/-- A digit character is not a minus sign, a quote, or the letter n. -/
theorem isDigit_ne (c : Char) (h : c.isDigit = true) : c ≠ '-' ∧ c ≠ '"' ∧ c ≠ 'n' := by
  refine ⟨fun hc => ?_, fun hc => ?_, fun hc => ?_⟩ <;>
    · subst hc
      exact absurd h (by decide)

/-- The greedy digit scanner folds a big-endian digit-character list onto the
accumulator and stops at the first non-digit. -/
theorem parseNatAux_digits (ds : List Nat) (hds : ∀ d ∈ ds, d < 10) (acc : Nat)
    (rest : List Char) (hrest : noDigitHead rest) :
    parseNatAux acc (ds.map digitChar ++ rest) =
      (ds.foldl (fun a d => a * 10 + d) acc, rest) := by
  induction ds generalizing acc with
  | nil =>
    match rest, hrest with
    | [], _ => rfl
    | c :: r, hrest =>
      have hc : c.isDigit = false := hrest c (by simp)
      simp [parseNatAux, hc]
  | cons d ds ih =>
    have hd : d < 10 := hds d (by simp)
    have h1 : (digitChar d).isDigit = true := digitChar_isDigit d hd
    have h2 : (digitChar d).toNat - 48 = d := digitChar_toNat d hd
    simp [parseNatAux, h1, h2, ih (fun x hx => hds x (by simp [hx]))]

/-- Folding the reversed digits is exponent-weighted evaluation. -/
theorem foldl_reverse_ofLE (ds : List Nat) (acc : Nat) :
    ds.reverse.foldl (fun a d => a * 10 + d) acc = acc * 10 ^ ds.length + ofLE ds := by
  induction ds generalizing acc with
  | nil => simp [ofLE]
  | cons d ds ih =>
    simp only [List.reverse_cons, List.foldl_append, List.foldl_cons, List.foldl_nil,
      ih, ofLE, List.length_cons]
    ring

/-- The decimal serialization of a natural number is a nonempty big-endian
digit-character list evaluating to the number. -/
theorem serNat_eq (n : Nat) : ∃ ds : List Nat, (∀ d ∈ ds, d < 10) ∧
    serNat n = ds.map digitChar ∧ ds ≠ [] ∧
    ds.foldl (fun a d => a * 10 + d) 0 = n := by
  by_cases h0 : n = 0
  · exact ⟨[0], by simp, by simp [h0, serNat, digitChar], by simp, by simp [h0]⟩
  · refine ⟨(natToDigits n n).reverse, ?_, ?_, ?_, ?_⟩
    · intro d hd
      exact natToDigits_lt n n d (List.mem_reverse.mp hd)
    · simp [serNat, h0]
    · simp [natToDigits_ne_nil n n h0 (Nat.le_refl n)]
    · rw [foldl_reverse_ofLE, natToDigits_ofLE n n (Nat.le_refl n)]
      simp

/-- Parsing a serialized natural number recovers it, provided the rest does
not begin with another digit. -/
theorem parseNat_ser (n : Nat) (rest : List Char) (hrest : noDigitHead rest) :
    parseNat (serNat n ++ rest) = some (n, rest) := by
  obtain ⟨ds, hlt, hser, hne, hval⟩ := serNat_eq n
  match ds, hne, hser, hval with
  | d :: ds', _, hser, hval =>
    have hd : d < 10 := hlt d (by simp)
    have h1 : (digitChar d).isDigit = true := digitChar_isDigit d hd
    have h2 : (digitChar d).toNat - 48 = d := digitChar_toNat d hd
    rw [hser]
    have hshape : (d :: ds').map digitChar ++ rest =
        digitChar d :: (ds'.map digitChar ++ rest) := by
      simp
    rw [hshape, parseNat, if_pos h1, h2]
    rw [parseNatAux_digits ds' (fun x hx => hlt x (by simp [hx])) d rest hrest]
    have hv : ds'.foldl (fun a x => a * 10 + x) (0 * 10 + d) = n := by
      rw [← List.foldl_cons]
      exact hval
    have hz : 0 * 10 + d = d := by omega
    rw [hz] at hv
    rw [hv]

/-- The decimal serialization of a natural number starts with a digit
character. -/
theorem serNat_head (n : Nat) : ∃ c cs, serNat n = c :: cs ∧ c.isDigit = true := by
  obtain ⟨ds, hlt, hser, hne, _⟩ := serNat_eq n
  match ds, hne, hser with
  | d :: ds', _, hser =>
    exact ⟨digitChar d, ds'.map digitChar, by simpa using hser,
      digitChar_isDigit d (hlt d (by simp))⟩

/-- Parsing a serialized integer recovers it, provided the rest does not begin
with a digit. -/
theorem parseInt_ser (i : Int) (rest : List Char) (hrest : noDigitHead rest) :
    parseInt (serInt i ++ rest) = some (i, rest) := by
  by_cases hneg : i < 0
  · have hshape : serInt i ++ rest = '-' :: (serNat i.natAbs ++ rest) := by
      simp [serInt, hneg]
    rw [hshape]
    simp only [parseInt, if_pos rfl]
    rw [parseNat_ser i.natAbs rest hrest]
    have hi : -(i.natAbs : Int) = i := by omega
    simp [hi, abs_of_neg hneg]
  · obtain ⟨c, cs, hc, hdig⟩ := serNat_head i.natAbs
    have hshape : serInt i ++ rest = c :: (cs ++ rest) := by
      simp [serInt, hneg, hc]
    rw [hshape]
    have hcm : ¬(c = '-') := (isDigit_ne c hdig).1
    simp only [parseInt, if_neg hcm]
    have hback : c :: (cs ++ rest) = serNat i.natAbs ++ rest := by
      simp [hc]
    rw [hback, parseNat_ser i.natAbs rest hrest]
    have hi : (i.natAbs : Int) = i := by omega
    simp [hi, abs_of_nonneg (le_of_not_lt hneg)]

/-- Parsing a serialized scalar value recovers it, provided the rest does not
begin with a digit. -/
theorem parseVal_ser (v : JVal) (rest : List Char) (hrest : noDigitHead rest) :
    parseVal (serVal v ++ rest) = some (v, rest) := by
  match v with
  | JVal.str s =>
    have hshape : serVal (JVal.str s) ++ rest =
        '"' :: (s.data.flatMap escChar ++ ('"' :: rest)) := by
      simp [serVal, serStr]
    rw [hshape, parseVal.eq_def]
    simp [parseStrBody_ser]
  | JVal.null =>
    have hshape : serVal JVal.null ++ rest = 'n' :: 'u' :: 'l' :: 'l' :: rest := by
      simp [serVal]
    rw [hshape, parseVal.eq_def]
    simp
  | JVal.num i =>
    by_cases hneg : i < 0
    · have hshape : serVal (JVal.num i) ++ rest = '-' :: (serNat i.natAbs ++ rest) := by
        simp [serVal, serInt, hneg]
      rw [hshape, parseVal.eq_def]
      have hint : parseInt ('-' :: (serNat i.natAbs ++ rest)) = some (i, rest) := by
        have h := parseInt_ser i rest hrest
        have hs : serInt i ++ rest = '-' :: (serNat i.natAbs ++ rest) := by
          simp [serInt, hneg]
        rw [hs] at h
        exact h
      simp [hint]
    · obtain ⟨c, cs, hc, hdig⟩ := serNat_head i.natAbs
      obtain ⟨hm, hq, hn⟩ := isDigit_ne c hdig
      have hshape : serVal (JVal.num i) ++ rest = c :: (cs ++ rest) := by
        simp [serVal, serInt, hneg, hc]
      rw [hshape, parseVal.eq_def]
      have hint : parseInt (c :: (cs ++ rest)) = some (i, rest) := by
        have h := parseInt_ser i rest hrest
        have hs : serInt i ++ rest = c :: (cs ++ rest) := by
          simp [serInt, hneg, hc]
        rw [hs] at h
        exact h
      simp [hq, hn, hint]

/-- The serialized entries of a nonempty object start with the opening quote
of the first key. -/
theorem serEntries1_head {α : Type} (serV : α → List Char) (k : String) (v : α)
    (es : List (String × α)) :
    ∃ tl, serEntries1 serV k v es = '"' :: tl := by
  cases es with
  | nil =>
    exact ⟨k.data.flatMap escChar ++ ['"'] ++ (':' :: serV v),
      by simp [serEntries1, serStr]⟩
  | cons e es =>
    obtain ⟨k2, v2⟩ := e
    exact ⟨k.data.flatMap escChar ++ ['"'] ++
      (':' :: (serV v ++ ',' :: serEntries1 serV k2 v2 es)),
      by simp [serEntries1, serStr]⟩

/-- A serialized string has at least its two quotes. -/
theorem serStr_length (s : String) : 2 ≤ (serStr s).length := by
  simp [serStr]

/-- Serialized entries are strictly longer than the entry count. -/
theorem serEntries1_length {α : Type} (serV : α → List Char) :
    ∀ (es : List (String × α)) (k : String) (v : α),
      es.length < (serEntries1 serV k v es).length
  | [], k, v => by
    have hk := serStr_length k
    simp [serEntries1]
  | (k2, v2) :: es, k, v => by
    have ih := serEntries1_length serV es k2 v2
    have hk := serStr_length k
    simp [serEntries1]
    omega

/-- A serialized object is strictly longer than its entry count. -/
theorem serObj_length {α : Type} (serV : α → List Char) (es : List (String × α)) :
    es.length < (serObj serV es).length := by
  cases es with
  | nil => simp [serObj]
  | cons e es =>
    obtain ⟨k, v⟩ := e
    have h := serEntries1_length serV es k v
    simp [serObj]
    omega

/-- Each entry's serialized value fits inside the serialized entries. -/
theorem serEntries1_length_ge {α : Type} (serV : α → List Char) :
    ∀ (es : List (String × α)) (k : String) (v : α) (p : String × α),
      p ∈ (k, v) :: es → (serV p.2).length ≤ (serEntries1 serV k v es).length
  | [], k, v, p, hp => by
    rcases List.mem_cons.mp hp with rfl | h
    · simp [serEntries1]
      omega
    · simp at h
  | (k2, v2) :: es, k, v, p, hp => by
    rcases List.mem_cons.mp hp with rfl | h
    · simp [serEntries1]
      omega
    · have ih := serEntries1_length_ge serV es k2 v2 p h
      simp [serEntries1]
      omega

/-- Each entry's serialized value fits inside the serialized object. -/
theorem serObj_length_ge {α : Type} (serV : α → List Char) (es : List (String × α))
    (p : String × α) (hp : p ∈ es) :
    (serV p.2).length ≤ (serObj serV es).length := by
  cases es with
  | nil => simp at hp
  | cons e es =>
    obtain ⟨k, v⟩ := e
    have h := serEntries1_length_ge serV es k v p hp
    simp [serObj]
    omega

/-- Parsing serialized nonempty object entries recovers them, given enough
fuel and a parser that inverts the value serializer before a comma or a
closing brace. -/
theorem parseEntries_ser {α : Type} (parseV : List Char → Option (α × List Char))
    (serV : α → List Char) :
    ∀ (es : List (String × α)) (k : String) (v : α) (fuel : Nat) (rest : List Char),
      es.length < fuel →
      (∀ p ∈ (k, v) :: es, ∀ r2 : List Char,
        (r2.head? = some ',' ∨ r2.head? = some '\x7d') →
        parseV (serV p.2 ++ r2) = some (p.2, r2)) →
      parseEntries parseV fuel (serEntries1 serV k v es ++ ('\x7d' :: rest)) =
        some ((k, v) :: es, rest)
  | [], k, v, fuel, rest, hfuel, HV => by
    match fuel, hfuel with
    | f + 1, _ =>
      have hshape : serEntries1 serV k v [] ++ ('\x7d' :: rest) =
          serStr k ++ (':' :: (serV v ++ ('\x7d' :: rest))) := by
        simp [serEntries1]
      have hv := HV (k, v) (List.mem_cons_self _ _) ('\x7d' :: rest) (Or.inr rfl)
      rw [hshape]
      simp [parseEntries, parseString_ser, hv]
  | (k2, v2) :: es, k, v, fuel, rest, hfuel, HV => by
    match fuel, hfuel with
    | f + 1, hfuel =>
      have hshape : serEntries1 serV k v ((k2, v2) :: es) ++ ('\x7d' :: rest) =
          serStr k ++
            (':' :: (serV v ++ (',' :: (serEntries1 serV k2 v2 es ++ ('\x7d' :: rest))))) := by
        simp [serEntries1]
      have hv := HV (k, v) (List.mem_cons_self _ _)
        (',' :: (serEntries1 serV k2 v2 es ++ ('\x7d' :: rest))) (Or.inl rfl)
      have hlen : es.length < f := by
        have := hfuel
        simp at this
        omega
      have ih := parseEntries_ser parseV serV es k2 v2 f rest hlen
        (fun p hp => HV p (List.mem_cons_of_mem _ hp))
      rw [hshape]
      simp [parseEntries, parseString_ser, hv, ih]

/-- An object opener not followed by an immediate closing brace parses via
its entries. -/
theorem parseObj_cons_ne {α : Type} (parseV : List Char → Option (α × List Char))
    (fuel : Nat) (c : Char) (l : List Char) (hc : c ≠ '\x7d') :
    parseObj parseV fuel ('\x7b' :: c :: l) = parseEntries parseV fuel (c :: l) := by
  rw [parseObj.eq_def]
  simp [hc]

/-- Parsing a serialized object recovers it, given enough fuel and a parser
that inverts the value serializer before a comma or a closing brace. -/
theorem parseObj_ser {α : Type} (parseV : List Char → Option (α × List Char))
    (serV : α → List Char) (es : List (String × α)) (fuel : Nat) (rest : List Char)
    (hfuel : es.length < fuel)
    (HV : ∀ p ∈ es, ∀ r2 : List Char,
      (r2.head? = some ',' ∨ r2.head? = some '\x7d') →
      parseV (serV p.2 ++ r2) = some (p.2, r2)) :
    parseObj parseV fuel (serObj serV es ++ rest) = some (es, rest) := by
  cases es with
  | nil => simp [serObj, parseObj]
  | cons e es =>
    obtain ⟨k, v⟩ := e
    obtain ⟨tl, htl⟩ := serEntries1_head serV k v es
    have hshape : serObj serV ((k, v) :: es) ++ rest =
        '\x7b' :: ('"' :: (tl ++ ('\x7d' :: rest))) := by
      simp [serObj, htl]
    rw [hshape, parseObj_cons_ne parseV fuel '"' (tl ++ ('\x7d' :: rest))
      (by decide)]
    have hback : ('"' : Char) :: (tl ++ ('\x7d' :: rest)) =
        serEntries1 serV k v es ++ ('\x7d' :: rest) := by
      simp [htl]
    rw [hback]
    exact parseEntries_ser parseV serV es k v fuel rest
      (by simp at hfuel; omega) HV

/-- Parsing a serialized row object recovers the row, with any continuation. -/
theorem parseRow_ser (r : JRow) (fuel : Nat) (hfuel : r.length < fuel) (rest : List Char) :
    parseObj parseVal fuel (serObj serVal r ++ rest) = some (r, rest) := by
  refine parseObj_ser parseVal serVal r fuel rest hfuel ?_
  intro p _ r2 h2
  refine parseVal_ser p.2 r2 ?_
  intro c hc
  rcases h2 with h2 | h2 <;> rw [h2] at hc <;> simp at hc <;> subst hc <;> decide

/-- The two-level JSON text produced for a table parses back to its indexed
form. -/
theorem json_loads_to_json_index (t : ResultTable) :
    json_loads (to_json_index t) = some (indexedTable t) := by
  have hdata : (to_json_index t).data = serObj (fun r => serObj serVal r) (indexedTable t) :=
    rfl
  unfold json_loads
  rw [hdata]
  have houter := parseObj_ser (fun l2 =>
      parseObj parseVal (serObj (fun r => serObj serVal r) (indexedTable t)).length l2)
    (fun r => serObj serVal r) (indexedTable t)
    (serObj (fun r => serObj serVal r) (indexedTable t)).length []
    (serObj_length _ _)
    (by
      intro p hp r2 h2
      refine parseRow_ser p.2 _ ?_ r2
      calc p.2.length < (serObj serVal p.2).length := serObj_length serVal p.2
        _ ≤ _ := serObj_length_ge (fun r => serObj serVal r) (indexedTable t) p hp)
  rw [List.append_nil] at houter
  rw [houter]

/-- C6: the conversion of runQuery followed by the JSON parse in processQuery
reproduces the table: parsing the produced text yields the mapping from
stringified row index to column-name-to-value rows, preserving the returned
row order and reproducing every column value; on a fault-free run
fetch_data_as_json returns exactly that text and process_snowflake_query
returns the parsed mapping. -/
theorem runQuery_roundtrip (t : ResultTable)
    (h : ∀ r ∈ t.rows, r.length = t.columns.length) :
    json_loads (to_json_index t) = some (indexedTable t) ∧
    (indexedTable t).length = t.rows.length ∧
    (∀ (i : Nat) (r : List JVal), t.rows[i]? = some r →
      (indexedTable t)[i]? = some (toString i, t.columns.zip r) ∧
      (t.columns.zip r).map Prod.snd = r) ∧
    (∀ app w, w.failAt = none →
      (fetch_data_as_json app w).1 = Except.ok (to_json_index w.table) ∧
      (process_snowflake_query app w).1 = Except.ok (indexedTable w.table)) := by
  refine ⟨json_loads_to_json_index t, ?_, ?_, ?_⟩
  · simp [indexedTable, List.enum_length]
  · intro i r hr
    constructor
    · simp [indexedTable, List.getElem?_map, List.getElem?_enum, hr]
    · have hmem : r ∈ t.rows := by
        obtain ⟨hlt, rfl⟩ := List.getElem?_eq_some.mp hr
        exact List.getElem_mem hlt
      exact List.map_snd_zip t.columns r (le_of_eq (h r hmem))
  · intro app w hw
    obtain ⟨oc⟩ := app
    match oc with
    | some c =>
      constructor
      · simp [fetch_data_as_json, get_snowflake_connection, hw]
      · simp [process_snowflake_query, fetch_data_as_json, get_snowflake_connection,
          json_loads_faulty, hw, json_loads_to_json_index]
    | none =>
      constructor
      · simp [fetch_data_as_json, get_snowflake_connection, hw]
      · simp [process_snowflake_query, fetch_data_as_json, get_snowflake_connection,
          json_loads_faulty, hw, json_loads_to_json_index]

/-- Witness for C6 at a two-row table with string, positive and negative
number, and null cells. -/
theorem runQuery_roundtrip_witness :
    (∀ r ∈ ({ columns := ["user_email", "messages"], rows := [[JVal.str "a@x.com", JVal.num 5], [JVal.null, JVal.num (-3)]] } : ResultTable).rows,
      r.length = ({ columns := ["user_email", "messages"], rows := [[JVal.str "a@x.com", JVal.num 5], [JVal.null, JVal.num (-3)]] } : ResultTable).columns.length) ∧
    json_loads (to_json_index { columns := ["user_email", "messages"], rows := [[JVal.str "a@x.com", JVal.num 5], [JVal.null, JVal.num (-3)]] }) =
      some (indexedTable { columns := ["user_email", "messages"], rows := [[JVal.str "a@x.com", JVal.num 5], [JVal.null, JVal.num (-3)]] }) :=
  ⟨by decide, (runQuery_roundtrip { columns := ["user_email", "messages"], rows := [[JVal.str "a@x.com", JVal.num 5], [JVal.null, JVal.num (-3)]] } (by decide)).1⟩

end OutreachDashboard
